import Mathlib

/-!
Verification of the register-address computation and value-decoding core of
the terrasmart-modbus-automated report generators, together with the
mode-toggle client. Definitions are shallow embeddings of the JavaScript
source: JavaScript numbers that can be NaN or infinite are modelled by the
type JNum, finite numbers are modelled exactly as rationals, thrown
exceptions are modelled by Except.error, and the stateful Modbus transport
is modelled as an oracle function from (unit id, starting address, count)
to a read outcome.
-/

deriving instance DecidableEq for Except

namespace TerraModbus

/-- ASCII lower-casing of one character, the fragment of
String.prototype.toLowerCase exercised by the generators. -/
def toLowerChar (c : Char) : Char :=
  if 'A' ≤ c ∧ c ≤ 'Z' then Char.ofNat (c.toNat + 32) else c

/-- ASCII upper-casing of one character, the fragment of
String.prototype.toUpperCase exercised by the generators. -/
def toUpperChar (c : Char) : Char :=
  if 'a' ≤ c ∧ c ≤ 'z' then Char.ofNat (c.toNat - 32) else c

def jsToLower (s : String) : String := String.mk (s.data.map toLowerChar)

def jsToUpper (s : String) : String := String.mk (s.data.map toUpperChar)

/-- A JavaScript number as the generators see it: NaN, a signed infinity,
or a finite value modelled exactly as a rational. -/
inductive JNum
  | nan
  | inf (positive : Bool)
  | fin (q : ℚ)
deriving DecidableEq, Repr

/-- Number.isFinite. -/
def JNum.isFiniteb : JNum → Bool
  | .fin _ => true
  | _ => false

/-- Number.isNaN. -/
def JNum.isNaNb : JNum → Bool
  | .nan => true
  | _ => false

/-- Value of a hexadecimal digit, the digit set accepted both by
Buffer.from(s, hex) and by the BigInt hex-literal grammar: the code-point
ranges of 0-9, a-f and A-F. -/
def hexDigitVal (c : Char) : Option ℕ :=
  if 48 ≤ c.toNat ∧ c.toNat ≤ 57 then some (c.toNat - 48)
  else if 97 ≤ c.toNat ∧ c.toNat ≤ 102 then some (c.toNat - 87)
  else if 65 ≤ c.toNat ∧ c.toNat ≤ 70 then some (c.toNat - 55)
  else none

def isHexDigitChar (c : Char) : Bool := (hexDigitVal c).isSome

/-- Node Buffer.from(hex, hex encoding): decode complete leading pairs of
hex digits, stopping at the first invalid pair or at a dangling final
digit, without throwing. -/
def hexToBytes : List Char → List ℕ
  | c1 :: c2 :: rest =>
    match hexDigitVal c1, hexDigitVal c2 with
    | some hi, some lo => (16 * hi + lo) :: hexToBytes rest
    | _, _ => []
  | _ => []

/-- Big-endian byte sequence read as an unsigned integer. -/
def bytesToNat (bs : List ℕ) : ℕ := bs.foldl (fun a b => a * 256 + b) 0

/-- Reinterpretation of a w-bit unsigned value as a two's-complement
signed integer, as done by Buffer.readInt16BE and Buffer.readInt32BE. -/
def toSigned (w : ℕ) (n : ℕ) : ℤ :=
  if n < 2 ^ (w - 1) then (n : ℤ) else (n : ℤ) - 2 ^ w

/-- The JavaScript whitespace code points relevant to regex class s and to
StringToBigInt trimming (the common ones; enough for the strings that
appear in this development). -/
def isJSWhitespace (c : Char) : Bool :=
  decide (c.toNat ∈ ([9, 10, 11, 12, 13, 32, 160, 0x1680, 0x2028, 0x2029, 0x202F, 0x3000, 0xFEFF] : List ℕ))
  || (decide (0x2000 ≤ c.toNat) && decide (c.toNat ≤ 0x200A))

def trimTrailingJSWhitespace (l : List Char) : List Char :=
  (l.reverse.dropWhile isJSWhitespace).reverse

/-- StringToBigInt applied to the concatenation of 0x and hex succeeds
exactly when, after trimming trailing whitespace, a nonempty run of hex
digits remains. Leading whitespace inside hex lands after the 0x marker
and therefore makes the conversion fail. -/
def isValidBigIntHex (hex : String) : Bool :=
  let core := trimTrailingJSWhitespace hex.data
  !core.isEmpty && core.all isHexDigitChar

/-- The numeric value BigInt computes for the 0x-prefixed string. -/
def bigIntHexVal (hex : String) : ℕ :=
  (trimTrailingJSWhitespace hex.data).foldl (fun a c => a * 16 + ((hexDigitVal c).getD 0)) 0

/-- A value produced by decodeValue. The float32 case keeps the 32-bit
pattern read by readFloatBE and the ascii case keeps the byte sequence
with NUL bytes stripped, since the IEEE-754 rendering and the UTF-8
rendering are pure functions of those data. -/
inductive JSValue
  | null
  | str (s : String)
  | int (n : ℤ)
  | floatBits (bits : ℕ)
  | asciiBytes (bs : List ℕ)
deriving DecidableEq, Repr

/-- The alias table shared by all generators. -/
def CODEC_ALIASES : List (String × String) :=
  [("asciiz", "ascii"), ("utf8", "ascii"), ("text", "ascii"), ("string", "ascii"),
   ("float", "float32"), ("floatbe", "float32"), ("float32", "float32"),
   ("int", "int32"), ("int32", "int32"), ("i32", "int32"),
   ("uint", "uint32"), ("u32", "uint32"), ("uint32", "uint32"),
   ("u64", "uint64"), ("uint64", "uint64"),
   ("int64", "int64"), ("i64", "int64"),
   ("int16", "int16"), ("i16", "int16"), ("s16", "int16"),
   ("uint16", "uint16"), ("u16", "uint16"),
   ("bool", "boolean"), ("boolean", "boolean"),
   ("hex", "hex")]

/-- normalizeCodec: lower-case, remove all whitespace, look up the alias
table, and pass unknown names through unchanged. -/
def normalizeCodec (codec : String) : String :=
  let key := String.mk ((jsToLower codec).data.filter (fun c => !(isJSWhitespace c)))
  (CODEC_ALIASES.lookup key).getD key

/-- decodeValue from csvModbusTTID.js lines 30-56 (the copy in part_000 is
identical). A thrown exception is modelled as Except.error; the only
throwing path is the BigInt conversion in the uint64 case. -/
def decodeValue (hex : String) (codec : String) : Except String JSValue :=
  let buffer := hexToBytes hex.data
  match codec with
  | "ascii" => .ok (.asciiBytes (buffer.filter (fun b => b ≠ 0)))
  | "float32" =>
    if 4 ≤ buffer.length then .ok (.floatBits (bytesToNat (buffer.take 4)))
    else .ok (.str "Not enough bytes for float32")
  | "int32" =>
    if 4 ≤ buffer.length then .ok (.int (toSigned 32 (bytesToNat (buffer.take 4))))
    else .ok (.str "Not enough bytes for int32")
  | "uint32" =>
    if 4 ≤ buffer.length then .ok (.int (bytesToNat (buffer.take 4)))
    else .ok (.str "Not enough bytes for uint32")
  | "uint64" =>
    if 8 ≤ buffer.length then
      if isValidBigIntHex hex then .ok (.str (toString (bigIntHexVal hex)))
      else .error ("Cannot convert 0x" ++ hex ++ " to a BigInt")
    else .ok (.str "Not enough bytes for uint64")
  | "int64" => .ok (.str "Int64 decoding not implemented")
  | "int16" =>
    if 2 ≤ buffer.length then .ok (.int (toSigned 16 (bytesToNat (buffer.take 2))))
    else .ok (.str "Not enough bytes for int16")
  | "uint16" =>
    if 2 ≤ buffer.length then .ok (.int (bytesToNat (buffer.take 2)))
    else .ok (.str "Not enough bytes for uint16")
  | "boolean" =>
    if 2 ≤ buffer.length then .ok (.int (if bytesToNat (buffer.take 2) ≠ 0 then 1 else 0))
    else .ok (.str "Not enough bytes for boolean")
  | "hex" => .ok (.str ("0x" ++ jsToUpper hex))
  | _ => .ok .null

/-- decodeValue from part_001 (the legacy sorted generator): identical
control flow, shorter diagnostic messages. -/
def decodeValueLegacy (hex : String) (codec : String) : Except String JSValue :=
  let buffer := hexToBytes hex.data
  match codec with
  | "ascii" => .ok (.asciiBytes (buffer.filter (fun b => b ≠ 0)))
  | "float32" =>
    if 4 ≤ buffer.length then .ok (.floatBits (bytesToNat (buffer.take 4)))
    else .ok (.str "Not enough bytes")
  | "int32" =>
    if 4 ≤ buffer.length then .ok (.int (toSigned 32 (bytesToNat (buffer.take 4))))
    else .ok (.str "Not enough bytes")
  | "uint32" =>
    if 4 ≤ buffer.length then .ok (.int (bytesToNat (buffer.take 4)))
    else .ok (.str "Not enough bytes")
  | "uint64" =>
    if 8 ≤ buffer.length then
      if isValidBigIntHex hex then .ok (.str (toString (bigIntHexVal hex)))
      else .error ("Cannot convert 0x" ++ hex ++ " to a BigInt")
    else .ok (.str "Not enough bytes")
  | "int64" => .ok (.str "Int64 decoding not implemented")
  | "int16" =>
    if 2 ≤ buffer.length then .ok (.int (toSigned 16 (bytesToNat (buffer.take 2))))
    else .ok (.str "Not enough bytes")
  | "uint16" =>
    if 2 ≤ buffer.length then .ok (.int (bytesToNat (buffer.take 2)))
    else .ok (.str "Not enough bytes")
  | "boolean" =>
    if 2 ≤ buffer.length then .ok (.int (if bytesToNat (buffer.take 2) ≠ 0 then 1 else 0))
    else .ok (.str "Not enough bytes")
  | "hex" => .ok (.str ("0x" ++ jsToUpper hex))
  | _ => .ok .null

/-- Hex digit character, as produced by Number.prototype.toString(16). -/
def hexDigitChar (n : ℕ) : Char :=
  if n < 10 then Char.ofNat (48 + n) else Char.ofNat (87 + n)

/-- Fuel-driven rendering of Number.prototype.toString(16) for a
nonnegative integer; the fuel is always taken larger than the number. -/
def hexDigitsAux : ℕ → ℕ → List Char
  | 0, _ => []
  | fuel + 1, n =>
    if n < 16 then [hexDigitChar n]
    else hexDigitsAux fuel (n / 16) ++ [hexDigitChar (n % 16)]

def natToHexString (n : ℕ) : String := String.mk (hexDigitsAux (n + 1) n)

/-- String.prototype.padStart with the zero character. -/
def padStart (s : String) (n : ℕ) : String :=
  String.mk (List.replicate (n - s.length) '0' ++ s.data)

/-- One register word rendered as in every generator: normalize a
negative word v to 0x10000 + v, render in base 16, pad to 4 digits.
Register words delivered by modbus-serial lie in the interval from -32768
to 65535, so the normalized value is a natural number. -/
def word4hex (v : ℤ) : String :=
  padStart (natToHexString ((if v < 0 then 65536 + v else v).toNat)) 4

def joinHex (ws : List ℤ) : String := String.join (ws.map word4hex)

/-- The leading-zero strip performed only by csvModbusTTID.js line 207. -/
def stripLeadingZeros (s : String) : String :=
  String.mk (s.data.dropWhile (fun c => c = '0'))

/-- Combined hex string of the TTID poller: strip leading zeros from the
concatenation and fall back to the two-character zero string when nothing
remains. -/
def ttidCombinedHex (ws : List ℤ) : String :=
  let s := stripLeadingZeros (joinHex ws)
  if s = "" then "00" else s

/-- Combined hex string of the position-based pollers, part_000 line 460
and part_001 line 141: the plain concatenation. -/
def legacyCombinedHex (ws : List ℤ) : String := joinHex ws

/-- The three width-padding steps applied to the combined hex string
before decoding, identical in all generators. -/
def padForCodec (normalizedCodec : String) (s0 : String) : String :=
  let s1 := if normalizedCodec ∈ ["uint64"] ∧ s0.length < 16 then padStart s0 16 else s0
  let s2 := if normalizedCodec ∈ ["uint32", "int32", "float32"] ∧ s1.length < 8 then padStart s1 8 else s1
  let s3 := if normalizedCodec ∈ ["uint16", "int16", "boolean"] ∧ s2.length < 4 then padStart s2 4 else s2
  s3

/-- The two error kinds thrown by computeUnitId. The JavaScript messages
also embed the offending value; only the kind matters downstream. -/
inductive AddrError
  | invalidIdentifier
  | unknownDeviceCategory
deriving DecidableEq, Repr

def addrErrMessage : AddrError → String
  | .invalidIdentifier => "Invalid TTID for row boxes"
  | .unknownDeviceCategory => "Unknown device type"

/-- computeUnitId, csvModbusTTID.js lines 83-93. Number.isInteger on a
finite rational is the condition that its denominator is one. -/
def computeUnitId (deviceType : String) (ttidNum : ℚ) : Except AddrError ℤ :=
  let t := jsToLower deviceType
  if t = "row" then
    if ¬ ttidNum.den = 1 ∨ ttidNum < 1 then .error .invalidIdentifier
    else .ok (⌊(ttidNum - 1) / 100⌋ + 1)
  else if t = "weather" then .ok 101
  else if t = "repeater" then .ok 102
  else if t = "network" then .ok 100
  else .error .unknownDeviceCategory

/-- computeStartingAddressForType, csvModbusTTID.js lines 96-104. -/
def computeStartingAddressForType (deviceType : String) (ttidNum : ℚ) (unitId : ℤ)
    (baseReg : ℚ) : ℚ :=
  if jsToLower deviceType = "row" then
    ((ttidNum - 1) - ((unitId : ℚ) - 1) * 100) * 512 + baseReg
  else (ttidNum - 1) * 512 + baseReg

/-- The unit id and starting address exactly as the TTID poller composes
the two functions above. -/
def codeAddressCalc (deviceType : String) (t b : ℚ) : Except AddrError (ℤ × ℚ) :=
  match computeUnitId deviceType t with
  | .error e => .error e
  | .ok u => .ok (u, computeStartingAddressForType deviceType t u b)

/-- Reference Address Calculator transcribed from the words of the
specification, section 4.2, TTID-addressing mode, over lowercase category
names. This definition intentionally follows the spec text, to be
compared with codeAddressCalc. -/
def specAddressCalculator (category : String) (t b : ℚ) : Except AddrError (ℤ × ℚ) :=
  if category = "row" then
    if t.den = 1 ∧ 1 ≤ t then
      let u : ℤ := ⌊(t - 1) / 100⌋ + 1
      .ok (u, ((t - 1) - ((u : ℚ) - 1) * 100) * 512 + b)
    else .error .invalidIdentifier
  else if category = "weather" then .ok (101, (t - 1) * 512 + b)
  else if category = "repeater" then .ok (102, (t - 1) * 512 + b)
  else if category = "network" then .ok (100, (t - 1) * 512 + b)
  else .error .unknownDeviceCategory

/-- Outcome of one readHoldingRegisters call: the word list on success or
the message of the raised error. -/
inductive ReadResult
  | ok (words : List ℤ)
  | err (msg : String)
deriving DecidableEq, Repr

/-- The Modbus transport as an oracle: unit id (set by client.setID just
before the read), starting address and register count map to an outcome. -/
abbrev ReadOracle := ℤ → JNum → JNum → ReadResult

/-- A performed read request, recorded to make network access visible. -/
abbrev ReadReq := ℤ × JNum × JNum

/-- A CSV cell of a result row: a string, a JavaScript number, or an
integer unit id. -/
inductive Cell
  | s (v : String)
  | n (v : JNum)
  | i (v : ℤ)
deriving DecidableEq, Repr

/-- A result row of the TTID poller, with the fields pushed by
readModbusBatch. -/
structure ResultRow where
  TTID : Cell
  Site : String
  UnitID : Cell
  ID : String
  StartingAddress : Cell
  Size : Cell
  CombinedHex : String
  DecodedValue : JSValue
deriving DecidableEq, Repr

/-- One field-spec record as the pollers consume it, after the JavaScript
Number conversions of BaseReg and Size. -/
structure Field where
  ID : String
  BaseReg : JNum
  Size : JNum
  Codec : String
deriving DecidableEq, Repr

/-- The row pushed for a TTID whose numeric conversion is not finite
(csvModbusTTID.js lines 164-170); the TTID cell keeps the raw string. -/
def invalidTTIDRow (site rawTTID : String) : ResultRow :=
  ⟨.s rawTTID, site, .s "", "", .s "", .s "", "Invalid TTID", .str ""⟩

/-- The row pushed when computeUnitId throws (lines 173-181); the TTID
cell keeps the raw string. -/
def unitErrRow (site rawTTID : String) (e : AddrError) : ResultRow :=
  ⟨.s rawTTID, site, .s "", "", .s "", .s "", "Error: " ++ addrErrMessage e, .str ""⟩

/-- The row pushed for a field spec that fails validation
(lines 190-197). -/
def invalidSpecRow (site : String) (ttidNum : ℚ) (unitId : ℤ) (f : Field) : ResultRow :=
  ⟨.n (.fin ttidNum), site, .i unitId, f.ID, .n f.BaseReg, .n f.Size, "Invalid field spec", .str ""⟩

/-- Decoded value of a successful read, including the unknown-codec
substitution and the try/catch around decodeValue (lines 222-230). -/
def decodedOrDiag (paddedHex rawCodec normalizedCodec : String) : JSValue :=
  match decodeValue paddedHex normalizedCodec with
  | .ok v => if v = JSValue.null ∧ rawCodec ≠ "" then .str ("Unknown codec \"" ++ rawCodec ++ "\"") else v
  | .error m => .str ("Decode error: " ++ m)

/-- One iteration of the field loop of readModbusBatch, lines 184-249:
the single row it pushes and the read requests it performs. -/
def processField (site deviceType : String) (ttidNum : ℚ) (unitId : ℤ)
    (read : ReadOracle) (field : Field) : ResultRow × List ReadReq :=
  match field.BaseReg, field.Size with
  | JNum.fin baseReg, JNum.fin size =>
    if size ≤ 0 then (invalidSpecRow site ttidNum unitId field, [])
    else
      let startAddr := computeStartingAddressForType deviceType ttidNum unitId baseReg
      match read unitId (JNum.fin startAddr) (JNum.fin size) with
      | .ok words =>
        let padded := padForCodec (normalizeCodec field.Codec) (ttidCombinedHex words)
        (⟨.n (.fin ttidNum), site, .i unitId, field.ID, .n (.fin startAddr), .n (.fin size),
          "'" ++ jsToUpper padded, decodedOrDiag padded field.Codec (normalizeCodec field.Codec)⟩,
         [(unitId, JNum.fin startAddr, JNum.fin size)])
      | .err m =>
        (⟨.n (.fin ttidNum), site, .i unitId, field.ID, .n (.fin startAddr), .n (.fin size),
          "Error: " ++ m, .str ""⟩,
         [(unitId, JNum.fin startAddr, JNum.fin size)])
  | _, _ => (invalidSpecRow site ttidNum unitId field, [])

/-- The push-only inner field loop over a field-spec list, threading the
accumulated row list exactly like the push calls of the source. -/
def fieldLoop (site deviceType : String) (ttidNum : ℚ) (unitId : ℤ) (read : ReadOracle)
    (spec : List Field) (acc : List ResultRow) : List ResultRow :=
  spec.foldl (fun a f => a ++ [(processField site deviceType ttidNum unitId read f).1]) acc

/-- One identifier of the CSV input: the raw cell text together with the
JavaScript Number conversion of its trimmed form. -/
structure TTIDInput where
  raw : String
  num : JNum
deriving Repr

/-- The body of the outer identifier loop of readModbusBatch,
lines 162-251, acting on the accumulated row list. -/
def pollStep (site deviceType : String) (read : ReadOracle) (spec : List Field)
    (allResults : List ResultRow) (t : TTIDInput) : List ResultRow :=
  match t.num with
  | JNum.fin q =>
    match computeUnitId deviceType q with
    | .error e => allResults ++ [unitErrRow site t.raw e]
    | .ok u => fieldLoop site deviceType q u read spec allResults
  | _ => allResults ++ [invalidTTIDRow site t.raw]

/-- The accumulation loop of readModbusBatch over one device category:
rows are only ever appended by pollStep. -/
def pollLoop (site deviceType : String) (read : ReadOracle) (spec : List Field)
    (ttids : List TTIDInput) : List ResultRow :=
  ttids.foldl (pollStep site deviceType read spec) []

/-- The rows contributed by a single identifier: one row when the
identifier is rejected, otherwise one row per field spec in declaration
order. -/
def rowsForTTID (site deviceType : String) (read : ReadOracle) (spec : List Field)
    (t : TTIDInput) : List ResultRow :=
  match t.num with
  | JNum.fin q =>
    match computeUnitId deviceType q with
    | .error e => [unitErrRow site t.raw e]
    | .ok u => spec.map (fun f => (processField site deviceType q u read f).1)
  | _ => [invalidTTIDRow site t.raw]

/-- A result row of the legacy sorted generator part_001, which has no
TTID column. -/
structure LegacyRow where
  ID : String
  Site : String
  UnitID : Cell
  StartingAddress : Cell
  Size : Cell
  CombinedHex : String
  DecodedValue : JSValue
deriving DecidableEq, Repr

/-- posBase * 512 + b in JavaScript arithmetic, for a finite posBase. -/
def jsAffine (posBase : ℚ) : JNum → JNum
  | .fin b => .fin (posBase * 512 + b)
  | .inf p => .inf p
  | .nan => .nan

/-- One iteration of the entry loop of readAllPositionsFromCsv, part_001
lines 130-169: the rows it pushes (possibly none, because entries failing
validation are skipped silently) and the read requests it performs. -/
def legacyFieldStep (site : String) (unitId : ℤ) (read : ReadOracle) (posBase : ℚ)
    (e : Field) : List LegacyRow × List ReadReq :=
  if e.ID = "" ∨ e.BaseReg = JNum.nan ∨ e.Size = JNum.nan then ([], [])
  else
    let start := jsAffine posBase e.BaseReg
    let req : ReadReq := (unitId, start, e.Size)
    match read unitId start e.Size with
    | .ok words =>
      let padded := padForCodec (normalizeCodec e.Codec) (legacyCombinedHex words)
      match decodeValueLegacy padded (normalizeCodec e.Codec) with
      | .ok v => ([⟨e.ID, site, .i unitId, .n start, .n e.Size, "'" ++ jsToUpper padded, v⟩], [req])
      | .error m => ([⟨e.ID, site, .i unitId, .n start, .n e.Size, "Error: " ++ m, .str ""⟩], [req])
    | .err m => ([⟨e.ID, site, .i unitId, .n start, .n e.Size, "Error: " ++ m, .str ""⟩], [req])

/-- One iteration of the entry loop of readModbusPositions, part_000
lines 453-488: the legacy unsorted poller pushes exactly one row per
entry, with no validation of the entry and no unknown-codec substitution,
so the decoded value attached to the row is whatever decodeValue
returned, including null for an unrecognized codec. -/
def positionFieldStep (site : String) (unitId : ℤ) (read : ReadOracle) (posBase : ℚ)
    (e : Field) : LegacyRow × List ReadReq :=
  let rangeStart := jsAffine posBase e.BaseReg
  let req : ReadReq := (unitId, rangeStart, e.Size)
  match read unitId rangeStart e.Size with
  | .ok words =>
    let padded := padForCodec (normalizeCodec e.Codec) (legacyCombinedHex words)
    match decodeValue padded (normalizeCodec e.Codec) with
    | .ok v =>
      (⟨e.ID, site, .i unitId, .n rangeStart, .n e.Size, "'" ++ jsToUpper padded, v⟩, [req])
    | .error m =>
      (⟨e.ID, site, .i unitId, .n rangeStart, .n e.Size, "Error: " ++ m, .str ""⟩, [req])
  | .err m =>
    (⟨e.ID, site, .i unitId, .n rangeStart, .n e.Size, "Error: " ++ m, .str ""⟩, [req])

/-- The four response selection shapes tried by the mode-toggle client,
most ambitious first. -/
def SELECTIONS : List String :=
  ["modbusService \x7b enableModbusService enableModbusWrites enableModbusSorting enableLegacyMode \x7d",
   "modbusService \x7b enableModbusService enableModbusWrites \x7d",
   "modbusService \x7b __typename \x7d",
   "__typename"]

/-- The two feature flags of the outgoing payload; a missing key is
modelled by none. -/
structure Flags where
  enableLegacyMode : Option Bool
  enableModbusSorting : Option Bool
deriving DecidableEq, Repr

def MODE_MAP : List (String × Flags) :=
  [("ttid", ⟨some false, some false⟩),
   ("legacy-unsorted", ⟨some true, some false⟩),
   ("legacy-sorted", ⟨some true, some true⟩)]

/-- The outcome of the four regular-expression tests that setFlags and
scrubUnsupportedFlagsFromError apply to an error message. The messages
are opaque text, so the classification is supplied by an abstract
classifier function. -/
structure MsgClass where
  cannotQueryField : Bool
  unknownArgOrField : Bool
  mentionsSorting : Bool
  mentionsLegacy : Bool
deriving Repr

/-- Outcome of one fetch call: a rejected promise, or a resolution with
the ok flag, status code, body text, and the parse of the body (none when
JSON.parse throws; otherwise the GraphQL errors array abstracted to its
messages and the data node abstracted to a string). -/
inductive FetchResult
  | reject (msg : String)
  | resolve (resOk : Bool) (status : ℕ) (text : String)
      (parsed : Option (List String × Option String))
deriving Repr

structure PostOutcome where
  ok : Bool
  errMsg : Option String
  node : Option String
deriving Repr

/-- postUpdate, part_000 lines 67-107. The fetch await sits in a
try/finally block with no catch clause, so a rejected fetch (transport
failure or timeout abort) is re-raised, modelled by Except.error. -/
def postUpdate (fr : FetchResult) : Except String PostOutcome :=
  match fr with
  | .reject m => .error m
  | .resolve resOk status text parsed =>
    match parsed with
    | none => .ok ⟨false, some ("Non-JSON response (status " ++ toString status ++ "): " ++ text), none⟩
    | some (errors, node) =>
      if resOk = false then .ok ⟨false, some ("HTTP " ++ toString status ++ ": " ++ text), none⟩
      else if errors ≠ [] then .ok ⟨false, some ("GraphQL errors: " ++ String.join errors), none⟩
      else .ok ⟨true, none, node⟩

/-- scrubUnsupportedFlagsFromError, lines 109-118, returning the reduced
flags and whether anything changed. -/
def scrubUnsupportedFlagsFromError (flags : Flags) (c : MsgClass) : Flags × Bool :=
  let p1 := if c.mentionsSorting && flags.enableModbusSorting.isSome
            then ({ flags with enableModbusSorting := none }, true) else (flags, false)
  let p2 := if c.mentionsLegacy && p1.1.enableLegacyMode.isSome
            then ({ p1.1 with enableLegacyMode := none }, true) else (p1.1, false)
  (p2.1, p1.2 || p2.2)

/-- Structured outcome of setFlags and setModbusMode. -/
inductive SetOutcome
  | applied (selection : String) (appliedFlags : Flags) (response : Option String)
  | skipped (reason : String) (appliedFlags : Flags)
deriving Repr

def Flags.isEmptyFlags (f : Flags) : Bool :=
  f.enableLegacyMode.isNone && f.enableModbusSorting.isNone

/-- Result of one pass over the selection list. -/
inductive SelStep
  | applied (sel : String) (fl : Flags) (node : Option String)
  | reduced (fl : Flags)
  | fellThrough (fl : Flags)
deriving Repr

/-- The inner selection loop of setFlags, lines 126-163, threading a call
counter into the fetch oracle. -/
def selLoop (classify : String → MsgClass) (oracle : ℕ → FetchResult) (flags : Flags) :
    List String → ℕ → Except String (SelStep × ℕ)
  | [], k => .ok (.fellThrough flags, k)
  | sel :: rest, k =>
    match postUpdate (oracle k) with
    | .error m => .error m
    | .ok r =>
      if r.ok then .ok (.applied sel flags r.node, k + 1)
      else
        let c := classify (r.errMsg.getD "")
        if c.cannotQueryField then selLoop classify oracle flags rest (k + 1)
        else if c.unknownArgOrField then
          match scrubUnsupportedFlagsFromError flags c with
          | (f2, true) => .ok (.reduced f2, k + 1)
          | (_, false) => selLoop classify oracle flags rest (k + 1)
        else selLoop classify oracle flags rest (k + 1)

/-- The outer attempt loop of setFlags, lines 124-172: six cycles over the
selection shapes, with the empty-flags check after each cycle. -/
def attemptLoop (classify : String → MsgClass) (oracle : ℕ → FetchResult) :
    ℕ → Flags → ℕ → Except String SetOutcome
  | 0, flags, _ => .ok (.skipped "Exhausted retries" flags)
  | a + 1, flags, k =>
    match selLoop classify oracle flags SELECTIONS k with
    | .error m => .error m
    | .ok (.applied sel fl node, _) => .ok (.applied sel fl node)
    | .ok (.reduced f2, k2) =>
      if f2.isEmptyFlags then .ok (.skipped "Unsupported flags" ⟨none, none⟩)
      else attemptLoop classify oracle a f2 k2
    | .ok (.fellThrough fl, k2) =>
      if fl.isEmptyFlags then .ok (.skipped "Unsupported flags" ⟨none, none⟩)
      else attemptLoop classify oracle a fl k2

def setFlags (classify : String → MsgClass) (oracle : ℕ → FetchResult)
    (flags : Flags) : Except String SetOutcome :=
  attemptLoop classify oracle 6 flags 0

/-- setModbusMode, part_000 lines 189-216: resolve the mode name and run
setFlags. Nothing between the mode lookup and the setFlags call can
throw, so any raised error of setFlags reaches the caller. -/
def setModbusMode (classify : String → MsgClass) (oracle : ℕ → FetchResult)
    (mode : String) : Except String SetOutcome :=
  match MODE_MAP.lookup (jsToLower mode) with
  | none => .ok (.skipped ("Invalid mode \"" ++ mode ++ "\"") ⟨none, none⟩)
  | some flags => setFlags classify oracle flags

/-- The canonical codec names recognized by the decodeValue switch. -/
def canonicalCodecs : List String :=
  ["ascii", "float32", "int32", "uint32", "uint64", "int64", "int16", "uint16", "boolean", "hex"]

/-- The hex-character width each width-padded codec is padded to, from the
specification: 4 for the 16-bit kinds, 8 for the 32-bit kinds, 16 for
uint64. -/
def requiredWidth (codec : String) : ℕ :=
  if codec ∈ ["uint16", "int16", "boolean"] then 4
  else if codec ∈ ["uint32", "int32", "float32"] then 8
  else if codec = "uint64" then 16
  else 0

/-- The validation predicate of the TTID poller on a field spec, negated:
base register not finite, or register count not finite, or not
positive. -/
def isInvalidSpec (f : Field) : Prop :=
  (∀ b, f.BaseReg ≠ JNum.fin b) ∨ (∀ s, f.Size ≠ JNum.fin s) ∨ ∃ s, f.Size = JNum.fin s ∧ s ≤ 0

def exceptIsOk : Except String JSValue → Bool
  | .ok _ => true
  | .error _ => false

/-! ## Helper lemmas -/

lemma padStart_length_of_lt (s : String) (n : ℕ) (h : s.length < n) :
    (padStart s n).length = n := by
  unfold padStart
  have hd : s.length = s.data.length := rfl
  simp only [String.length_mk, List.length_append, List.length_replicate]
  omega

lemma padStart_of_le (s : String) (n : ℕ) (h : n ≤ s.length) : padStart s n = s := by
  unfold padStart
  rw [Nat.sub_eq_zero_of_le h]
  simp

lemma hexDigitsAux_length_le :
    ∀ (fuel n k : ℕ), n < fuel → n < 16 ^ (k + 1) → (hexDigitsAux fuel n).length ≤ k + 1 := by
  intro fuel
  induction fuel with
  | zero => intro n k h _; omega
  | succ f ih =>
    intro n k hf hk
    unfold hexDigitsAux
    split
    · simp
    · rename_i hn
      push_neg at hn
      have hk1 : 1 ≤ k := by
        by_contra hc
        push_neg at hc
        have : k = 0 := by omega
        subst this
        simp at hk
        omega
      have hdivf : n / 16 < f := by
        have : n / 16 < n := Nat.div_lt_self (by omega) (by omega)
        omega
      have hdiv16 : n / 16 < 16 ^ ((k - 1) + 1) := by
        have hkk : (k - 1) + 1 = k := by omega
        rw [hkk, Nat.div_lt_iff_lt_mul (by omega)]
        calc n < 16 ^ (k + 1) := hk
        _ = 16 ^ k * 16 := by ring
      have := ih (n / 16) (k - 1) hdivf hdiv16
      simp only [List.length_append, List.length_cons, List.length_nil]
      omega

lemma word4hex_length (v : ℤ) (h1 : -65536 < v) (h2 : v < 65536) :
    (word4hex v).length = 4 := by
  unfold word4hex natToHexString
  have hb : ((if v < 0 then 65536 + v else v).toNat) < 65536 := by
    split <;> omega
  set n := (if v < 0 then 65536 + v else v).toNat with hn
  have hlen : (hexDigitsAux (n + 1) n).length ≤ 4 := by
    have h16 : n < 16 ^ (3 + 1) := by norm_num; omega
    have := hexDigitsAux_length_le (n + 1) n 3 (by omega) h16
    omega
  unfold padStart
  have hd2 : ∀ t : String, t.length = t.data.length := fun _ => rfl
  simp only [String.length_mk, List.length_append, List.length_replicate, hd2]
  omega

lemma fieldLoop_eq (site dt : String) (q : ℚ) (u : ℤ) (read : ReadOracle) :
    ∀ (spec : List Field) (acc : List ResultRow),
      fieldLoop site dt q u read spec acc
        = acc ++ spec.map (fun f => (processField site dt q u read f).1) := by
  intro spec
  induction spec with
  | nil => intro acc; simp [fieldLoop]
  | cons f fs ih =>
    intro acc
    unfold fieldLoop at *
    rw [List.foldl_cons, ih]
    simp

lemma pollStep_eq (site dt : String) (read : ReadOracle) (spec : List Field)
    (acc : List ResultRow) (t : TTIDInput) :
    pollStep site dt read spec acc t = acc ++ rowsForTTID site dt read spec t := by
  unfold pollStep rowsForTTID
  cases t.num with
  | fin q =>
    cases hu : computeUnitId dt q with
    | error e => simp [hu]
    | ok u => simp [hu, fieldLoop_eq]
  | nan => rfl
  | inf p => rfl

/-! ## Claim theorems -/

/-- C1: the Address Calculator of the TTID poller agrees with the
reference definition transcribed from the specification, for every
category string and all rational identifier and base register values:
integral row identifiers of at least 1 give unitId floor((t-1)/100)+1 and
the banked start address, non-integral or small row identifiers fail with
the InvalidIdentifier error, weather, repeater and network map to the
constant unit ids 101, 102 and 100 with flat paging, and every other
category fails with the UnknownDeviceCategory error. -/
theorem C1_address_calculator_matches_spec (deviceType : String) (t b : ℚ) :
    codeAddressCalc deviceType t b = specAddressCalculator (jsToLower deviceType) t b := by
  unfold codeAddressCalc specAddressCalculator computeUnitId computeStartingAddressForType
  by_cases h1 : jsToLower deviceType = "row"
  · by_cases hd : t.den = 1
    · by_cases ht : t < 1
      · simp [h1, hd, ht, not_le.mpr ht]
      · simp [h1, hd, ht, not_lt.mp ht]
    · simp [h1, hd]
  · by_cases h2 : jsToLower deviceType = "weather"
    · simp [h1, h2]
    · by_cases h3 : jsToLower deviceType = "repeater"
      · simp [h1, h2, h3]
      · by_cases h4 : jsToLower deviceType = "network"
        · simp [h1, h2, h3, h4]
        · simp [h1, h2, h3, h4]

/-- C8: the int64 codec always yields the not-implemented diagnostic,
whatever the input hex string. -/
theorem C8_int64_always_unimplemented (hex : String) :
    decodeValue hex "int64" = Except.ok (JSValue.str "Int64 decoding not implemented") := rfl

/-- C2: the TTID poller emits its result rows grouped by identifier in
input order and, within one identifier, in field-spec declaration order;
the push-only accumulation loop equals the flat concatenation, over the
identifiers in order, of the block each identifier contributes, where a
rejected identifier contributes exactly one error row and an accepted one
contributes exactly one row per field spec in declaration order, each row
created exactly once as a success row or an error row by processField. -/
theorem C2_rows_grouped_in_order (site deviceType : String) (read : ReadOracle)
    (spec : List Field) (ttids : List TTIDInput) :
    pollLoop site deviceType read spec ttids
      = ttids.flatMap (rowsForTTID site deviceType read spec) := by
  unfold pollLoop
  suffices h : ∀ (l : List TTIDInput) (acc : List ResultRow),
      l.foldl (pollStep site deviceType read spec) acc
        = acc ++ l.flatMap (rowsForTTID site deviceType read spec) by
    simpa using h ttids []
  intro l
  induction l with
  | nil => intro acc; simp
  | cons t ts ih =>
    intro acc
    rw [List.foldl_cons, pollStep_eq, ih, List.flatMap_cons, List.append_assoc]

/-- C3 counterexample: with register words 0 and 1 the TTID poller does
not attach the concatenation of the 4-digit groups to the result row; the
leading-zero strip of csvModbusTTID.js line 207 reduces it to a single
digit. -/
theorem C3_counterexample :
    (processField "site" "weather" 1 101 (fun _ _ _ => ReadResult.ok [0, 1])
        ⟨"F", JNum.fin 0, JNum.fin 2, "hex"⟩).1.CombinedHex = "'1"
    ∧ String.join (([0, 1] : List ℤ).map word4hex) = "00000001"
    ∧ ¬ (processField "site" "weather" 1 101 (fun _ _ _ => ReadResult.ok [0, 1])
        ⟨"F", JNum.fin 0, JNum.fin 2, "hex"⟩).1.CombinedHex
      = "'" ++ jsToUpper (String.join (([0, 1] : List ℤ).map word4hex)) := by
  refine ⟨by decide, by decide, by decide⟩

/-- C3 amended: every register word in the 16-bit range is rendered as
exactly 4 hex digits with negative words normalized by adding 0x10000, so
-1 renders as ffff and 0 as 0000; the position-based pollers attach the
plain concatenation of these groups in register order, while the TTID
poller attaches that concatenation with leading zeros stripped, falling
back to the two-character zero string when nothing remains, prior to
width-padding and decoding. -/
theorem C3_word_rendering_and_assembly (v : ℤ) (ws : List ℤ) :
    (-65536 < v → v < 65536 → (word4hex v).length = 4)
    ∧ word4hex (-1) = "ffff"
    ∧ word4hex 0 = "0000"
    ∧ legacyCombinedHex ws = String.join (ws.map word4hex)
    ∧ ttidCombinedHex ws =
        (if stripLeadingZeros (String.join (ws.map word4hex)) = "" then "00"
         else stripLeadingZeros (String.join (ws.map word4hex))) :=
  ⟨word4hex_length v, by decide, by decide, rfl, rfl⟩

/-- C3 amended witness at the word -1 and the word list of the
counterexample. -/
theorem C3_word_rendering_witness : (word4hex (-1)).length = 4 :=
  (C3_word_rendering_and_assembly (-1) []).1 (by decide) (by decide)

/-- C4: the padding law. For each codec that requires N hex characters (4
for uint16, int16 and boolean, 8 for uint32, int32 and float32, 16 for
uint64), a combined hex string shorter than N is left-padded with zeros to
exactly N characters, and a string of length N or more passes through
unchanged, never truncated. -/
theorem C4_padding_law (codec s : String)
    (h : codec ∈ ["uint16", "int16", "boolean", "uint32", "int32", "float32", "uint64"]) :
    (s.length < requiredWidth codec →
      padForCodec codec s = padStart s (requiredWidth codec)
      ∧ (padForCodec codec s).length = requiredWidth codec)
    ∧ (requiredWidth codec ≤ s.length → padForCodec codec s = s) := by
  have key : padForCodec codec s
      = if s.length < requiredWidth codec then padStart s (requiredWidth codec) else s := by
    fin_cases h <;> simp [padForCodec, requiredWidth]
  rw [key]
  constructor
  · intro hlt
    rw [if_pos hlt]
    exact ⟨rfl, padStart_length_of_lt s _ hlt⟩
  · intro hge
    rw [if_neg (not_lt.mpr hge)]

/-- C4 witness: the uint32 codec pads a 3-character string to 8
characters. -/
theorem C4_padding_law_witness : (padForCodec "uint32" "abc").length = requiredWidth "uint32" :=
  ((C4_padding_law "uint32" "abc" (by decide)).1 (by decide)).2

/-- C5: a rejected fetch promise (transport failure or timeout abort)
propagates out of setModbusMode as a raised exception, because the await
in postUpdate sits in a try/finally block with no catch clause and
neither setFlags nor setModbusMode guards the call; this contradicts the
no-throw contract stated by the documentation of setModbusMode and by
the claim. -/
theorem C5_transport_rejection_escapes :
    setModbusMode (fun _ => ⟨false, false, false, false⟩)
        (fun _ => FetchResult.reject "request failed, reason: connect ECONNREFUSED")
        "ttid"
      = Except.error "request failed, reason: connect ECONNREFUSED" := rfl

/-- C6 counterexample: the legacy sorted poller of part_001 does not
reject a field spec with register count 0 before network access. The
entry passes the isNaN-only validation of line 132, a read with count 0
is issued (one request is recorded), and the appended row is an ordinary
success row, not an invalid-field-spec row. -/
theorem C6_counterexample :
    (legacyFieldStep "s" 1 (fun _ _ _ => ReadResult.ok []) 0
        ⟨"Motor", JNum.fin 0, JNum.fin 0, "uint16"⟩).2.length = 1
    ∧ (legacyFieldStep "s" 1 (fun _ _ _ => ReadResult.ok []) 0
        ⟨"Motor", JNum.fin 0, JNum.fin 0, "uint16"⟩).1.map LegacyRow.CombinedHex
      = ["'0000"] := by
  refine ⟨by decide, by decide⟩

/-- C6 amended: in the TTID poller readModbusBatch the claim holds as
stated: a field spec with a non-finite base register, a non-finite
register count, or a register count of at most 0 is rejected before any
network access, with an invalid-field-spec row appended and no read
request issued, and the field loop continues with the next field. The
legacy sorted poller of part_001 instead validates only with isNaN and
silently skips (appending no row), so a register count of 0 is not
rejected there before network access. -/
theorem C6_ttid_invalid_spec_rejected (site deviceType : String) (q : ℚ) (u : ℤ)
    (read : ReadOracle) (f : Field) (h : isInvalidSpec f) :
    processField site deviceType q u read f = (invalidSpecRow site q u f, [])
    ∧ ∀ (rest : List Field) (acc : List ResultRow),
        fieldLoop site deviceType q u read (f :: rest) acc
          = fieldLoop site deviceType q u read rest (acc ++ [invalidSpecRow site q u f]) := by
  have hp : processField site deviceType q u read f = (invalidSpecRow site q u f, []) := by
    unfold processField
    rcases h with h | h | ⟨s, hs, hsle⟩
    · cases hb : f.BaseReg with
      | fin b => exact absurd hb (h b)
      | nan => cases f.Size <;> rfl
      | inf p => cases f.Size <;> rfl
    · cases hs : f.Size with
      | fin s => exact absurd hs (h s)
      | nan => cases f.BaseReg <;> rfl
      | inf p => cases f.BaseReg <;> rfl
    · rw [hs]
      cases f.BaseReg with
      | fin b => simp [hsle]
      | nan => rfl
      | inf p => rfl
  refine ⟨hp, fun rest acc => ?_⟩
  unfold fieldLoop
  rw [List.foldl_cons, hp]

/-- C6 amended witness: a field spec with register count 0 is rejected by
the TTID poller with no read request. -/
theorem C6_ttid_invalid_spec_witness :
    processField "s" "weather" 1 101 (fun _ _ _ => ReadResult.ok [])
        ⟨"X", JNum.fin 5, JNum.fin 0, "uint16"⟩
      = (invalidSpecRow "s" 1 101 ⟨"X", JNum.fin 5, JNum.fin 0, "uint16"⟩, []) :=
  (C6_ttid_invalid_spec_rejected "s" "weather" 1 101 (fun _ _ _ => ReadResult.ok [])
    ⟨"X", JNum.fin 5, JNum.fin 0, "uint16"⟩ (Or.inr (Or.inr ⟨0, rfl, le_refl 0⟩))).1

/-- An unknown canonical codec name falls through to the default branch
of the decodeValue switch and yields null. -/
lemma decodeValue_unknown (hex nc : String) (h : nc ∉ canonicalCodecs) :
    decodeValue hex nc = Except.ok JSValue.null := by
  unfold decodeValue
  split <;> simp_all [canonicalCodecs]

/-- C7 counterexample: in the legacy unsorted poller readModbusPositions
of part_000 (cited by the claim), a field with the non-empty unknown
codec widget yields a result row carrying the silent null that
decodeValue returned, because no unknown-codec substitution is performed
there; this refutes the claim that the decoded value is never a silent
null. -/
theorem C7_counterexample :
    "widget" ≠ ""
    ∧ normalizeCodec "widget" ∉ canonicalCodecs
    ∧ (positionFieldStep "s" 1 (fun _ _ _ => ReadResult.ok [0]) 0
        ⟨"F", JNum.fin 0, JNum.fin 1, "widget"⟩).1.DecodedValue = JSValue.null := by
  refine ⟨by decide, by decide, by decide⟩

/-- C7 amended: for a field whose raw codec string is non-empty and does
not normalize to one of the ten canonical codecs, the TTID poller
readModbusBatch attaches the diagnostic text containing the literal
original codec name, never a silent null; the legacy unsorted poller
readModbusPositions of part_000 performs no such substitution and
attaches the silent null returned by decodeValue. -/
theorem C7_unknown_codec_diagnostic (site deviceType : String) (q : ℚ) (u : ℤ)
    (read : ReadOracle) (f : Field) (b s : ℚ) (words : List ℤ)
    (hb : f.BaseReg = JNum.fin b) (hs : f.Size = JNum.fin s) (hpos : 0 < s)
    (hr : read u (JNum.fin (computeStartingAddressForType deviceType q u b)) (JNum.fin s)
            = ReadResult.ok words)
    (hne : f.Codec ≠ "") (hunk : normalizeCodec f.Codec ∉ canonicalCodecs) :
    ((processField site deviceType q u read f).1.DecodedValue
        = JSValue.str ("Unknown codec \"" ++ f.Codec ++ "\"")
      ∧ (processField site deviceType q u read f).1.DecodedValue ≠ JSValue.null)
    ∧ ∀ (posBase : ℚ) (read2 : ReadOracle),
        read2 u (jsAffine posBase f.BaseReg) f.Size = ReadResult.ok words →
        (positionFieldStep site u read2 posBase f).1.DecodedValue = JSValue.null := by
  have hrow : (processField site deviceType q u read f).1.DecodedValue
      = JSValue.str ("Unknown codec \"" ++ f.Codec ++ "\"") := by
    unfold processField
    rw [hb, hs]
    simp only [if_neg (not_le.mpr hpos)]
    rw [hr]
    simp only [decodedOrDiag, decodeValue_unknown _ _ hunk]
    simp [hne]
  refine ⟨⟨hrow, by rw [hrow]; simp⟩, fun posBase read2 hr2 => ?_⟩
  simp only [positionFieldStep]
  rw [hr2]
  simp only [decodeValue_unknown _ _ hunk]

/-- C7 amended witness at the codec name widget: the TTID poller row
carries the diagnostic and the part_000 poller row carries null. -/
theorem C7_unknown_codec_witness :
    (processField "s" "weather" 1 101 (fun _ _ _ => ReadResult.ok [0])
        ⟨"F", JNum.fin 0, JNum.fin 1, "widget"⟩).1.DecodedValue
      = JSValue.str ("Unknown codec \"" ++ "widget" ++ "\"")
    ∧ (positionFieldStep "s" 101 (fun _ _ _ => ReadResult.ok [0]) 0
        ⟨"F", JNum.fin 0, JNum.fin 1, "widget"⟩).1.DecodedValue = JSValue.null :=
  ⟨(C7_unknown_codec_diagnostic "s" "weather" 1 101 (fun _ _ _ => ReadResult.ok [0])
      ⟨"F", JNum.fin 0, JNum.fin 1, "widget"⟩ 0 1 [0] rfl rfl (by norm_num) rfl
      (by decide) (by decide)).1.1,
   (C7_unknown_codec_diagnostic "s" "weather" 1 101 (fun _ _ _ => ReadResult.ok [0])
      ⟨"F", JNum.fin 0, JNum.fin 1, "widget"⟩ 0 1 [0] rfl rfl (by norm_num) rfl
      (by decide) (by decide)).2 0 (fun _ _ _ => ReadResult.ok [0]) rfl⟩

/-- C9 counterexample: at row identifier 1, unit 1, increasing the base
register from 0 to 1 increases the start address by 1, not by 512; the
base register enters the formula additively, so the claimed difference of
512 per base-register step is false. -/
theorem C9_counterexample :
    computeUnitId "row" (1 : ℚ) = Except.ok 1
    ∧ ¬ (computeStartingAddressForType "row" (1 : ℚ) 1 (0 + 1)
          - computeStartingAddressForType "row" (1 : ℚ) 1 0 = 512) := by
  constructor
  · norm_num [computeUnitId, show jsToLower "row" = "row" from rfl]
  · norm_num [computeStartingAddressForType, show jsToLower "row" = "row" from rfl]

/-- C9 amended: for every row identifier n with 1 <= n <= 100000 the unit
id is (n-1)/100 + 1; the start address increases by 1 (not 512) as the
base register increases by 1, equals the in-bank offset (n-1) mod 100
times 512 plus the base register (so the base resets every 100
identifiers, one fresh 512-register slot per identifier in the bank), and
increases by 512 as the identifier increases by 1 within the same unit
bank. -/
theorem C9_row_bank_addressing (n : ℤ) (b : ℚ) (h1 : 1 ≤ n) (h2 : n ≤ 100000) :
    computeUnitId "row" (n : ℚ) = Except.ok ((n - 1) / 100 + 1)
    ∧ computeStartingAddressForType "row" (n : ℚ) ((n - 1) / 100 + 1) (b + 1)
        = computeStartingAddressForType "row" (n : ℚ) ((n - 1) / 100 + 1) b + 1
    ∧ computeStartingAddressForType "row" (n : ℚ) ((n - 1) / 100 + 1) b
        = (((n - 1) % 100 : ℤ) : ℚ) * 512 + b
    ∧ (computeUnitId "row" ((n + 1 : ℤ) : ℚ) = Except.ok ((n - 1) / 100 + 1)
        → computeStartingAddressForType "row" ((n + 1 : ℤ) : ℚ) ((n - 1) / 100 + 1) b
            = computeStartingAddressForType "row" (n : ℚ) ((n - 1) / 100 + 1) b + 512) := by
  have hrow : jsToLower "row" = "row" := rfl
  have hden : ((n : ℚ)).den = 1 := Rat.den_intCast n
  have hnlt : ¬ ((n : ℚ) < 1) := by
    push_neg
    exact_mod_cast h1
  have hfloor : ⌊((n : ℚ) - 1) / 100⌋ = (n - 1) / 100 := by
    have hcast : ((n : ℚ) - 1) = ((n - 1 : ℤ) : ℚ) := by push_cast; ring
    have h100 : (100 : ℚ) = ((100 : ℕ) : ℚ) := by norm_num
    rw [hcast, h100, Rat.floor_intCast_div_natCast]
    norm_num
  have hstart : ∀ c : ℚ, computeStartingAddressForType "row" (n : ℚ) ((n - 1) / 100 + 1) c
      = ((n : ℚ) - 1 - (((n - 1) / 100 : ℤ) : ℚ) * 100) * 512 + c := by
    intro c
    unfold computeStartingAddressForType
    rw [if_pos hrow]
    push_cast
    ring
  have hmod : ((n : ℚ) - 1 - (((n - 1) / 100 : ℤ) : ℚ) * 100) = (((n - 1) % 100 : ℤ) : ℚ) := by
    have hmain := Int.ediv_add_emod (n - 1) 100
    have hq : ((100 * ((n - 1) / 100) + (n - 1) % 100 : ℤ) : ℚ) = ((n - 1 : ℤ) : ℚ) :=
      congrArg (fun z : ℤ => (z : ℚ)) hmain
    push_cast at hq
    linarith
  refine ⟨?_, ?_, ?_, ?_⟩
  · simp only [computeUnitId, hrow, if_pos]
    rw [if_neg (by simp [hden, hnlt]), hfloor]
  · rw [hstart, hstart]; ring
  · rw [hstart, hmod]
  · intro _
    unfold computeStartingAddressForType
    rw [if_pos hrow, if_pos hrow]
    push_cast
    ring

/-- C9 amended witness at identifier 101 and base register 7: the unit id
is 2 and the start address is the in-bank offset 0 times 512 plus 7. -/
theorem C9_row_bank_witness :
    computeUnitId "row" ((101 : ℤ) : ℚ) = Except.ok (((101 : ℤ) - 1) / 100 + 1)
    ∧ computeStartingAddressForType "row" ((101 : ℤ) : ℚ) (((101 : ℤ) - 1) / 100 + 1) 7
        = ((((101 : ℤ) - 1) % 100 : ℤ) : ℚ) * 512 + 7 :=
  ⟨(C9_row_bank_addressing 101 7 (by decide) (by decide)).1,
   (C9_row_bank_addressing 101 7 (by decide) (by decide)).2.2.1⟩

/-- A hex digit is never a JavaScript whitespace character. -/
lemma hexDigit_not_ws (c : Char) (h : isHexDigitChar c = true) : isJSWhitespace c = false := by
  have hr : (48 ≤ c.toNat ∧ c.toNat ≤ 57) ∨ (97 ≤ c.toNat ∧ c.toNat ≤ 102)
      ∨ (65 ≤ c.toNat ∧ c.toNat ≤ 70) := by
    unfold isHexDigitChar hexDigitVal at h
    split_ifs at h with h1 h2 h3
    · exact Or.inl h1
    · exact Or.inr (Or.inl h2)
    · exact Or.inr (Or.inr h3)
    · simp at h
  cases hws : isJSWhitespace c
  · rfl
  · exfalso
    unfold isJSWhitespace at hws
    simp only [Bool.or_eq_true, Bool.and_eq_true, decide_eq_true_eq, List.mem_cons,
      List.not_mem_nil, or_false] at hws
    omega

/-- Trimming trailing whitespace from a string of hex digits changes
nothing. -/
lemma trimTrailing_of_all_hex (l : List Char) (h : l.all isHexDigitChar = true) :
    trimTrailingJSWhitespace l = l := by
  unfold trimTrailingJSWhitespace
  cases hrev : l.reverse with
  | nil =>
    have : l = [] := by simpa using congrArg List.reverse hrev
    simp [this]
  | cons a as =>
    have ha : a ∈ l := by
      rw [← List.mem_reverse, hrev]
      exact List.mem_cons_self a as
    have hha : isHexDigitChar a = true := by
      rw [List.all_eq_true] at h
      exact h a ha
    rw [List.dropWhile_cons, hexDigit_not_ws a hha]
    simp only [Bool.false_eq_true, if_false]
    rw [← hrev, List.reverse_reverse]

/-- A nonempty string of hex digits is a valid BigInt hex numeral. -/
lemma isValidBigIntHex_of_all_hex (hex : String) (h : hex.data.all isHexDigitChar = true)
    (hne : hex.data ≠ []) : isValidBigIntHex hex = true := by
  unfold isValidBigIntHex
  rw [trimTrailing_of_all_hex _ h]
  simp [h, hne]

/-- decodeValue raises exactly in the uint64 case with at least 8 decoded
bytes and an invalid BigInt numeral. -/
lemma decodeValue_error_iff (hex codec : String) :
    (∃ m, decodeValue hex codec = Except.error m)
      ↔ codec = "uint64" ∧ 8 ≤ (hexToBytes hex.data).length ∧ isValidBigIntHex hex = false := by
  unfold decodeValue
  split
  all_goals try simp_all
  all_goals
    first
      | (intro x; split_ifs <;> simp_all)
      | (split_ifs <;> simp_all)

/-- C10 corrected: decodeValue is a pure function of its two inputs
(determinism and absence of side effects are inherent to the functional
embedding), and it returns a value or diagnostic without raising in every
case except one: with the uint64 codec, when the buffer holds at least 8
decoded bytes but the full string is not a valid BigInt hex numeral, the
BigInt conversion raises a SyntaxError. On inputs consisting entirely of
hex digits it never raises. -/
theorem C10_decode_total_except_uint64_bigint (hex codec : String) :
    ((∃ m, decodeValue hex codec = Except.error m)
      ↔ codec = "uint64" ∧ 8 ≤ (hexToBytes hex.data).length ∧ isValidBigIntHex hex = false)
    ∧ (hex.data.all isHexDigitChar = true → exceptIsOk (decodeValue hex codec) = true) := by
  refine ⟨decodeValue_error_iff hex codec, fun hall => ?_⟩
  cases hres : decodeValue hex codec with
  | ok v => rfl
  | error m =>
    exfalso
    obtain ⟨hc, hlen, hinvalid⟩ := (decodeValue_error_iff hex codec).mp ⟨m, hres⟩
    have hne : hex.data ≠ [] := by
      intro hnil
      rw [hnil] at hlen
      simp [hexToBytes] at hlen
    rw [isValidBigIntHex_of_all_hex hex hall hne] at hinvalid
    exact absurd hinvalid (by simp)

/-- C10 counterexample: a string whose first 16 characters decode to 8
bytes but which ends in a non-hex character makes the uint64 decoder
raise, so decodeValue is not exception-free. -/
theorem C10_counterexample :
    decodeValue "0000000000000000x" "uint64"
      = Except.error "Cannot convert 0x0000000000000000x to a BigInt" := by decide

/-- C10 amended witness: on a pure hex-digit input the decoder returns
normally. -/
theorem C10_decode_total_witness : exceptIsOk (decodeValue "00" "int16") = true :=
  (C10_decode_total_except_uint64_bigint "00" "int16").2 (by decide)

end TerraModbus
